import Mathlib

/-!
Shallow embedding of the account-lifecycle and external-identity subsystem of
the cycling-club membership application (src/app/models.py,
src/app/blueprints/auth.py, src/app/blueprints/admin.py,
src/app/blueprints/strava.py).

Timestamps are modelled as natural numbers (`now` is passed explicitly where
the code calls `datetime.utcnow()`).  Password hashing is modelled as plain
string storage and comparison: the Credential Store collaborator is declared
out of scope at its interface boundary by the spec (§1, §2).  Database tables
become lists of records; SQLAlchemy `query.filter_by(...).first()` becomes
`List.find?`; committing a field update on a fetched row becomes `List.map`
with a pointwise update of the matching rows.  Presentation-only columns
(bio, avatar, created_at, last_seen, updated_at) are omitted.  Redirects and
flash messages become outcome constructors, one per distinct user-facing
outcome of a route.
-/

namespace KvckClub

/-- Python `str.strip()` (leading and trailing whitespace removed), written
as a list computation so that concrete witnesses evaluate in the kernel. -/
def pyStrip (s : String) : String :=
  ⟨((s.data.dropWhile Char.isWhitespace).reverse.dropWhile Char.isWhitespace).reverse⟩

/-- Python `str.lower()`. -/
def pyLower (s : String) : String := ⟨s.data.map Char.toLower⟩

/-- Python `str.replace(' ', '')`: remove every space. -/
def pyDespace (s : String) : String := ⟨s.data.filter (fun c => c ≠ ' ')⟩

/-- Python `s[0]` on a nonempty string, as a one-character string. -/
def pyFirstChar (s : String) : String := ⟨s.data.take 1⟩

/-- `UserState` enum from models.py. -/
inductive UserState where
  | pendingEmailVerification
  | pendingApproval
  | active
  | rejected
  | suspended
deriving DecidableEq, Repr

/-- `UserRole` enum from models.py. -/
inductive UserRole where
  | user
  | moderator
  | admin
deriving DecidableEq, Repr

/-- A row of the `users` table (models.py, class User); presentation-only
columns are omitted, `password` stands for the stored credential. -/
structure UserRec where
  id : Nat
  username : String
  email : String
  password : String
  displayName : String
  role : UserRole
  state : UserState
  emailVerifiedAt : Option Nat
  approvedAt : Option Nat
  approvedById : Option Nat
  rejectionReason : Option String
  suspendedReason : Option String
  leaderboardOptIn : Bool
deriving DecidableEq, Repr

/-- A row of `email_verification_tokens` (models.py). -/
structure EmailVerificationToken where
  userId : Nat
  token : String
  expiresAt : Nat
  usedAt : Option Nat
deriving DecidableEq, Repr

/-- `EmailVerificationToken.is_valid`: not used and not expired
(`self.used_at is None and self.expires_at > datetime.utcnow()`). -/
def EmailVerificationToken.is_valid (t : EmailVerificationToken) (now : Nat) : Bool :=
  t.usedAt = none && now < t.expiresAt

/-- The durable state touched by the auth blueprint. -/
structure AuthDb where
  users : List UserRec
  tokens : List EmailVerificationToken
deriving DecidableEq, Repr

/-- The distinct user-facing outcomes of `auth.verify_email`. -/
inductive VerifyOutcome where
  | invalidLink
  | expiredLink
  | verified
deriving DecidableEq, Repr

/-- `auth.verify_email` (auth.py lines 131-160): look the token string up;
unknown string gives the invalid-link outcome; a token failing `is_valid`
gives the expired-link outcome; otherwise the token is marked used, the
owner is moved to `pending_approval` and `email_verified_at` is stamped. -/
def verify_email (db : AuthDb) (tokenStr : String) (now : Nat) : VerifyOutcome × AuthDb :=
  match db.tokens.find? (fun t => t.token == tokenStr) with
  | none => (.invalidLink, db)
  | some v =>
    if !(v.is_valid now) then (.expiredLink, db)
    else
      (.verified,
        { users := db.users.map (fun u =>
            if u.id == v.userId then
              { u with state := .pendingApproval, emailVerifiedAt := some now }
            else u),
          tokens := db.tokens.map (fun t =>
            if t.token == tokenStr then { t with usedAt := some now } else t) })

/-- The distinct user-facing outcomes of `auth.login`. -/
inductive LoginOutcome where
  | wrongCredentials
  | needsVerification
  | pendingApprovalPage
  | rejectedMsg
  | suspendedMsg
  | loggedIn
deriving DecidableEq, Repr

/-- The outcome `auth.login` produces for each state of a user whose
credential check succeeded (auth.py lines 23-52). -/
def stateOutcome : UserState → LoginOutcome
  | .pendingEmailVerification => .needsVerification
  | .pendingApproval => .pendingApprovalPage
  | .rejected => .rejectedMsg
  | .suspended => .suspendedMsg
  | .active => .loggedIn

/-- `auth.login` (auth.py lines 9-54): find the user by username or email,
check the credential, then gate on state; only `active` yields a session
(the returned `Option Nat` is the session user id). -/
def login (users : List UserRec) (usernameOrEmail password : String) :
    LoginOutcome × Option Nat :=
  match users.find? (fun u => u.username == usernameOrEmail || u.email == usernameOrEmail) with
  | none => (.wrongCredentials, none)
  | some u =>
    if u.password != password then (.wrongCredentials, none)
    else match u.state with
      | .pendingEmailVerification => (.needsVerification, none)
      | .pendingApproval => (.pendingApprovalPage, none)
      | .rejected => (.rejectedMsg, none)
      | .suspended => (.suspendedMsg, none)
      | .active => (.loggedIn, some u.id)

/-- Outcomes of the admin approve/reject/reactivate routes: the warning
no-op versus the performed transition. -/
inductive AdminOutcome where
  | notEligible
  | done
deriving DecidableEq, Repr

/-- `request.form.get('reason', '').strip()` followed by
`reason if reason else None`. -/
def reasonField (reason : String) : Option String :=
  if pyStrip reason = "" then none else some (pyStrip reason)

/-- `admin.approve_user` (admin.py lines 106-134): only a `pending_approval`
user is approved; approval sets state `active`, stamps `approved_at` and
records the approver. -/
def approve_user (u : UserRec) (approverId now : Nat) : AdminOutcome × UserRec :=
  if u.state != .pendingApproval then (.notEligible, u)
  else (.done, { u with state := .active, approvedAt := some now,
                        approvedById := some approverId })

/-- `admin.reject_user` (admin.py lines 137-158): only a `pending_approval`
user is rejected; sets state `rejected` and the optional reason. -/
def reject_user (u : UserRec) (reason : String) : AdminOutcome × UserRec :=
  if u.state != .pendingApproval then (.notEligible, u)
  else (.done, { u with state := .rejected, rejectionReason := reasonField reason })

/-- `admin.members_reactivate` (admin.py lines 649-666): only a `suspended`
or `rejected` member is reactivated; sets state `active` and clears both
reason fields. -/
def members_reactivate (u : UserRec) : AdminOutcome × UserRec :=
  if u.state != .suspended && u.state != .rejected then (.notEligible, u)
  else (.done, { u with state := .active, suspendedReason := none,
                        rejectionReason := none })

/-- Outcomes of `admin.members_suspend`. -/
inductive SuspendOutcome where
  | cannotSuspendSelf
  | cannotSuspendAdmin
  | suspended
deriving DecidableEq, Repr

/-- `admin.members_suspend` (admin.py lines 624-646): the route refuses
self-suspension and moderators suspending admins, then sets state
`suspended` and the reason; the member's current state is never checked. -/
def members_suspend (actorId : Nat) (actorRole : UserRole) (u : UserRec)
    (reason : String) : SuspendOutcome × UserRec :=
  if u.id == actorId then (.cannotSuspendSelf, u)
  else if u.role == .admin && actorRole != .admin then (.cannotSuspendAdmin, u)
  else (.suspended, { u with state := .suspended, suspendedReason := reasonField reason })

/-- Modelled from the spec: the legal-transition graph of §4.1 of the spec
(this relation is the spec side of claim C1, not code of the repository). -/
def legalTransition : UserState → UserState → Bool
  | .pendingEmailVerification, .pendingApproval => true
  | .pendingApproval, .active => true
  | .pendingApproval, .rejected => true
  | .active, .suspended => true
  | .suspended, .active => true
  | .rejected, .active => true
  | _, _ => false

/-- A row of `strava_oauth_states` (models.py, class StravaOAuthState). -/
structure OAuthStateRec where
  state : String
  userId : Option Nat
  purpose : String
  expiresAt : Nat
  usedAt : Option Nat
deriving DecidableEq, Repr

/-- `StravaOAuthState.is_valid`: not used and not expired. -/
def OAuthStateRec.is_valid (s : OAuthStateRec) (now : Nat) : Bool :=
  s.usedAt = none && now < s.expiresAt

/-- The three distinct failure messages of `strava.validate_oauth_state`. -/
inductive StateError where
  | notFound
  | invalid
  | purposeMismatch
deriving DecidableEq, Repr

/-- `strava.validate_oauth_state` (strava.py lines 44-60): look the state
value up, check validity, check purpose, then mark the state used and
commit.  On success it returns the consumed state row and the updated
table; each failure leaves the table untouched. -/
def validate_oauth_state (states : List OAuthStateRec) (value purpose : String)
    (now : Nat) : Except StateError (OAuthStateRec × List OAuthStateRec) :=
  match states.find? (fun s => s.state == value) with
  | none => .error .notFound
  | some s =>
    if !(s.is_valid now) then .error .invalid
    else if s.purpose != purpose then .error .purposeMismatch
    else .ok ({ s with usedAt := some now },
      states.map (fun t => if t.state == value then { t with usedAt := some now } else t))

/-- A row of `strava_tokens` (models.py, class StravaToken): the external
identity link of one user. -/
structure StravaTokenRec where
  userId : Nat
  stravaAthleteId : Nat
  accessToken : String
  refreshToken : String
  expiresAt : Nat
deriving DecidableEq, Repr

/-- Outcome of the link-creation part of `strava.callback`. -/
inductive ConnectOutcome where
  | alreadyLinkedToAnother
  | linked
deriving DecidableEq, Repr

/-- The create-or-update step of `strava.callback` (strava.py lines 543-559):
if the caller already has a token row, only its access/refresh/expiry
columns are overwritten; otherwise a fresh row is inserted. -/
def connectUpsert (links : List StravaTokenRec) (uid aid : Nat)
    (acc ref : String) (exp : Nat) : List StravaTokenRec :=
  if (links.find? (fun t => t.userId == uid)).isSome then
    links.map (fun t =>
      if t.userId == uid then
        { t with accessToken := acc, refreshToken := ref, expiresAt := exp }
      else t)
  else links ++ [⟨uid, aid, acc, ref, exp⟩]

/-- The link-reconciliation core of `strava.callback` (strava.py lines
532-559): reject when the athlete id is already linked to a different
local user, otherwise create or update the caller's link. -/
def connect_link (links : List StravaTokenRec) (uid aid : Nat)
    (acc ref : String) (exp : Nat) : ConnectOutcome × List StravaTokenRec :=
  match links.find? (fun t => t.stravaAthleteId == aid) with
  | some t =>
    if t.userId != uid then (.alreadyLinkedToAnother, links)
    else (.linked, connectUpsert links uid aid acc ref exp)
  | none => (.linked, connectUpsert links uid aid acc ref exp)

/-- The durable state touched by the authenticated connect callback. -/
structure StravaDb where
  oauthStates : List OAuthStateRec
  links : List StravaTokenRec
deriving DecidableEq, Repr

/-- The distinct outcomes of `strava.callback`. -/
inductive CallbackOutcome where
  | stateFailed (e : StateError)
  | ownerMismatch
  | exchangeFailed
  | alreadyLinkedToAnother
  | linked
deriving DecidableEq, Repr

/-- The token-exchange result used by the connect callback: athlete id and
the access/refresh/expiry triple returned by the provider. -/
structure ConnectExchange where
  athleteId : Nat
  accessToken : String
  refreshToken : String
  expiresAt : Nat
deriving DecidableEq, Repr

/-- `strava.callback` (strava.py lines 496-562): validate (and thereby
consume) the flow-state, then check that the flow-state belongs to the
authenticated caller, then exchange the code (`exch = none` models a failed
exchange) and reconcile the link.  The owner check runs after the state has
already been marked used. -/
def callback (db : StravaDb) (uid : Nat) (stateValue : String)
    (exch : Option ConnectExchange) (now : Nat) : CallbackOutcome × StravaDb :=
  match validate_oauth_state db.oauthStates stateValue "connect" now with
  | .error e => (.stateFailed e, db)
  | .ok (st, states') =>
    let db1 : StravaDb := { db with oauthStates := states' }
    if st.userId != some uid then (.ownerMismatch, db1)
    else match exch with
      | none => (.exchangeFailed, db1)
      | some ex =>
        match connect_link db1.links uid ex.athleteId ex.accessToken
            ex.refreshToken ex.expiresAt with
        | (.alreadyLinkedToAnother, _) => (.alreadyLinkedToAnother, db1)
        | (.linked, links') => (.linked, { db1 with links := links' })

/-- The athlete profile fields of the provider's token-exchange response
that `strava.login_callback` reads. -/
structure AthleteProfile where
  athleteId : Option Nat
  firstname : String
  lastname : String
deriving DecidableEq, Repr

/-- The loop body of `strava.generate_username_from_strava` (strava.py
lines 347-351): `username = base; counter = 1;` then while the candidate is
taken try `base ++ toString counter` with the counter incremented.  The
Python loop is unbounded; fuel makes it structurally recursive, and
`taken.length + 1` fuel always suffices to reach a free name. -/
def findFreeUsername (taken : List String) (base : String) :
    String → Nat → Nat → String
  | username, _counter, 0 => username
  | username, counter, fuel+1 =>
    if username ∈ taken then
      findFreeUsername taken base (base ++ Nat.repr counter) (counter + 1) fuel
    else username

/-- `strava.generate_username_from_strava` (strava.py lines 329-353):
lowercase and despace the first/last names, build the base name (first name
plus the initial of the last name, falling back to the first name alone and
then to a synthetic `strava<id>` name, prefixed with `user` when shorter
than three characters), then search for a free name by appending an
incrementing numeric suffix starting at 1. -/
def generate_username_from_strava (taken : List String) (athlete : AthleteProfile) :
    String :=
  let first := pyDespace (pyLower athlete.firstname)
  let last := pyDespace (pyLower athlete.lastname)
  let base0 :=
    if first ≠ "" ∧ last ≠ "" then first ++ pyFirstChar last
    else if first ≠ "" then first
    else "strava" ++ (match athlete.athleteId with
                      | some i => Nat.repr i
                      | none => "")
  let base := if base0.length < 3 then "user" ++ base0 else base0
  findFreeUsername taken base base 1 (taken.length + 1)

/-- The provider response consumed by `strava.login_callback`: the athlete
profile plus the access/refresh/expiry triple. -/
structure LoginExchange where
  athlete : AthleteProfile
  accessToken : String
  refreshToken : String
  expiresAt : Nat
deriving DecidableEq, Repr

/-- The durable state touched by `strava.login_callback`;
`adminNotifications` records the user ids for which
`send_pending_approval_to_admins` fired. -/
structure SiteDb where
  users : List UserRec
  links : List StravaTokenRec
  oauthStates : List OAuthStateRec
  adminNotifications : List Nat
deriving DecidableEq, Repr

/-- The distinct outcomes of `strava.login_callback`. -/
inductive LoginCallbackOutcome where
  | stateFailed (e : StateError)
  | exchangeFailed
  | noAthleteId
  | danglingLink
  | pendingApprovalPage
  | suspendedMsg
  | notActiveMsg
  | loggedIn (uid : Nat)
  | accountCreated (username : String)
deriving DecidableEq, Repr

/-- `strava.login_callback` (strava.py lines 367-474): validate and consume
the login flow-state, exchange the code, and reconcile the athlete id.  A
known athlete id logs its Active owner in (refreshing the stored tokens) and
routes any non-Active owner to the matching informational outcome.  An
unknown athlete id originates a new `pending_approval` user with
`email_verified_at` stamped immediately, the derived unique username, the
placeholder `strava_<id>@strava.local` email, the random `randomPw`
credential, a fresh link row, and fires the pending-approval admin
notification.  `nextUserId` models the id the store assigns on insert. -/
def login_callback (db : SiteDb) (stateValue : String)
    (exch : Option LoginExchange) (now nextUserId : Nat) (randomPw : String) :
    LoginCallbackOutcome × SiteDb :=
  match validate_oauth_state db.oauthStates stateValue "login" now with
  | .error e => (.stateFailed e, db)
  | .ok (_st, states') =>
    let db1 : SiteDb := { db with oauthStates := states' }
    match exch with
    | none => (.exchangeFailed, db1)
    | some ex =>
      match ex.athlete.athleteId with
      | none => (.noAthleteId, db1)
      | some aid =>
        match db1.links.find? (fun t => t.stravaAthleteId == aid) with
        | some t =>
          match db1.users.find? (fun u => u.id == t.userId) with
          | none => (.danglingLink, db1)
          | some user =>
            if user.state != .active then
              if user.state == .pendingApproval then (.pendingApprovalPage, db1)
              else if user.state == .suspended then (.suspendedMsg, db1)
              else (.notActiveMsg, db1)
            else
              (.loggedIn user.id,
                { db1 with links := db1.links.map (fun l =>
                    if l.stravaAthleteId == aid then
                      { l with accessToken := ex.accessToken,
                               refreshToken := ex.refreshToken,
                               expiresAt := ex.expiresAt }
                    else l) })
        | none =>
          let uname := generate_username_from_strava
            (db1.users.map (fun u => u.username)) ex.athlete
          let dn := pyStrip (ex.athlete.firstname ++ " " ++ ex.athlete.lastname)
          let newUser : UserRec :=
            { id := nextUserId
              username := uname
              email := "strava_" ++ Nat.repr aid ++ "@strava.local"
              password := randomPw
              displayName := if dn = "" then uname else dn
              role := .user
              state := .pendingApproval
              emailVerifiedAt := some now
              approvedAt := none
              approvedById := none
              rejectionReason := none
              suspendedReason := none
              leaderboardOptIn := false }
          (.accountCreated uname,
            { db1 with
                users := db1.users ++ [newUser]
                links := db1.links ++
                  [⟨nextUserId, aid, ex.accessToken, ex.refreshToken, ex.expiresAt⟩]
                adminNotifications := db1.adminNotifications ++ [nextUserId] })

/-- One item of the provider's activity-list response, with the fields
`strava.sync` reads. -/
structure ActivityItem where
  itemId : Nat
  itemType : String
  name : String
  distance : Int
  movingTime : Int
  elapsedTime : Int
  elevationGain : Int
  averageSpeed : Int
  maxSpeed : Int
  startDate : Option Nat
  startDateLocal : Option Nat
deriving DecidableEq, Repr

/-- A row of `strava_activities` (models.py, class StravaActivity). -/
structure StravaActivityRec where
  stravaId : Nat
  userId : Nat
  name : String
  activityType : String
  distanceMeters : Int
  movingTimeSeconds : Int
  elapsedTimeSeconds : Int
  totalElevationGain : Int
  startDate : Option Nat
  startDateLocal : Option Nat
  averageSpeed : Int
  maxSpeed : Int
  syncedAt : Nat
deriving DecidableEq, Repr

/-- The per-item body of the `strava.sync` loop (strava.py lines 623-677):
items whose type tag is not exactly `"Ride"` are skipped; a known external
id overwrites the mutable columns in place and stamps `synced_at`; an
unknown id inserts a fresh row and counts as one newly synced record. -/
def ingestItem (recs : List StravaActivityRec) (uid now : Nat)
    (it : ActivityItem) : List StravaActivityRec × Nat :=
  if it.itemType != "Ride" then (recs, 0)
  else match recs.find? (fun r => r.stravaId == it.itemId) with
    | some _ =>
      (recs.map (fun r =>
        if r.stravaId == it.itemId then
          { r with name := it.name, distanceMeters := it.distance,
                   movingTimeSeconds := it.movingTime,
                   totalElevationGain := it.elevationGain,
                   averageSpeed := it.averageSpeed, maxSpeed := it.maxSpeed,
                   syncedAt := now }
        else r), 0)
    | none =>
      (recs ++ [⟨it.itemId, uid, it.name, it.itemType, it.distance,
                 it.movingTime, it.elapsedTime, it.elevationGain,
                 it.startDate, it.startDateLocal, it.averageSpeed,
                 it.maxSpeed, now⟩], 1)

/-- Folding `ingestItem` over a page, accumulating the inserted count. -/
def ingestPage (recs : List StravaActivityRec) (uid now : Nat)
    (items : List ActivityItem) : List StravaActivityRec × Nat :=
  items.foldl (fun acc it =>
    let (recs', n) := ingestItem acc.1 uid now it
    (recs', acc.2 + n)) (recs, 0)

/-- The pagination loop of `strava.sync` (strava.py lines 614-684).  The
provider is `fetchPage page perPage` (`none` models a failed request, which
like an empty page breaks the loop).  Every page is requested with the
fixed page size 50; a full page of 50 items causes a further request, a
shorter page ends the loop after being ingested.  The result is the number
of page requests made, the stored records, and the newly-inserted count.
The Python loop is unbounded; fuel makes it structurally recursive. -/
def syncLoop (fetchPage : Nat → Nat → Option (List ActivityItem)) (uid now : Nat) :
    Nat → Nat → List StravaActivityRec → Nat →
    Nat × List StravaActivityRec × Nat
  | 0, _page, recs, cnt => (0, recs, cnt)
  | fuel+1, page, recs, cnt =>
    match fetchPage page 50 with
    | none => (1, recs, cnt)
    | some acts =>
      if acts.isEmpty then (1, recs, cnt)
      else
        let (recs', added) := ingestPage recs uid now acts
        if acts.length < 50 then (1, recs', cnt + added)
        else
          let (reqs, recs'', cnt') :=
            syncLoop fetchPage uid now fuel (page + 1) recs' (cnt + added)
          (reqs + 1, recs'', cnt')

/-- The fetch phase of `strava.sync`: the loop starts at page 1 with a zero
inserted count over the user's current records. -/
def sync (fetchPage : Nat → Nat → Option (List ActivityItem)) (uid now : Nat)
    (recs : List StravaActivityRec) (fuel : Nat) :
    Nat × List StravaActivityRec × Nat :=
  syncLoop fetchPage uid now fuel 1 recs 0

/-- At most one link row per external athlete id (the unique constraint on
`strava_tokens.strava_athlete_id`). -/
def athleteUnique (links : List StravaTokenRec) : Prop :=
  links.Pairwise (fun a b => a.stravaAthleteId ≠ b.stravaAthleteId)

/-! Concrete records used by witnesses and counterexamples. -/

def pendingMember : UserRec :=
  { id := 3, username := "eva", email := "eva@klubb.se", password := "pw123456",
    displayName := "Eva", role := .user, state := .pendingApproval,
    emailVerifiedAt := some 20, approvedAt := none, approvedById := none,
    rejectionReason := none, suspendedReason := none, leaderboardOptIn := false }

def rejectedMember : UserRec :=
  { pendingMember with
    id := 5,
    username := "lars",
    email := "lars@klubb.se",
    state := .rejected,
    rejectionReason := some "spam" }

def activeOwner : UserRec :=
  { pendingMember with
    id := 8,
    username := "inga",
    email := "inga@klubb.se",
    state := .active,
    approvedAt := some 30,
    approvedById := some 1 }

def pevUser : UserRec :=
  { pendingMember with
    id := 2,
    username := "olle",
    email := "olle@klubb.se",
    state := .pendingEmailVerification,
    emailVerifiedAt := none }

def freshToken : EmailVerificationToken := ⟨2, "tok-fresh", 500, none⟩

def leftoverToken : EmailVerificationToken := ⟨8, "tok-leftover", 500, none⟩

def usedToken : EmailVerificationToken := ⟨8, "tok-used", 500, some 5⟩

def expiredToken : EmailVerificationToken := ⟨8, "tok-expired", 10, none⟩

def signupDb : AuthDb := ⟨[pevUser], [freshToken]⟩

def staleDb : AuthDb := ⟨[activeOwner], [leftoverToken]⟩

def tokenDb : AuthDb := ⟨[activeOwner], [usedToken, expiredToken]⟩

def sampleRide : ActivityItem :=
  ⟨555, "Ride", "Morgonrunda", 25000, 3600, 3700, 120, 7, 12, some 1000, some 1003⟩

def sampleRide2 : ActivityItem :=
  ⟨555, "Ride", "Morgonrunda lang", 26500, 3800, 3900, 140, 7, 13, some 1000, some 1003⟩

def sampleEbike : ActivityItem :=
  ⟨556, "EBikeRide", "Elcykeltur", 2000, 1800, 1900, 10, 1, 2, some 1100, some 1103⟩

def ridePage (start n : Nat) : List ActivityItem :=
  (List.range n).map (fun i =>
    ⟨start + i, "Ride", "Tur", 10000, 1800, 1900, 50, 5, 10, some (2000 + i), some (2003 + i)⟩)

/-- A provider returning two full pages of 50 items and then a page of 10. -/
def threePages : Nat → Nat → Option (List ActivityItem) :=
  fun page _perPage =>
    if page = 1 then some (ridePage 100 50)
    else if page = 2 then some (ridePage 200 50)
    else if page = 3 then some (ridePage 300 10)
    else some []

def linkA : StravaTokenRec := ⟨1, 777, "accA", "refA", 9000⟩

def linkB : StravaTokenRec := ⟨2, 888, "accB", "refB", 9000⟩

def connectState : OAuthStateRec :=
  { state := "st-connect", userId := some 1, purpose := "connect",
    expiresAt := 600, usedAt := none }

def connectDb : StravaDb := ⟨[connectState], [linkA, linkB]⟩

def loginState : OAuthStateRec :=
  { state := "st-login", userId := none, purpose := "login",
    expiresAt := 600, usedAt := none }

def annaAthlete : AthleteProfile := ⟨some 424242, "Anna", "Berg"⟩

def annaExchange : LoginExchange := ⟨annaAthlete, "accN", "refN", 9999⟩

def loginDb : SiteDb := ⟨[activeOwner], [], [loginState], []⟩

/-- Decimal value of a digit character. -/
def digitVal (c : Char) : Nat := c.toNat - 48

/-- Value of a list of digit characters, most significant first. -/
def decodeDigits (l : List Char) : Nat := l.foldl (fun a c => a * 10 + digitVal c) 0

theorem digitVal_digitChar : ∀ d : Nat, d < 10 → digitVal (Nat.digitChar d) = d := by
  decide

theorem toDigitsCore_ne_nil : ∀ (fuel n : Nat) (c : Char) (ds : List Char),
    Nat.toDigitsCore 10 fuel n (c :: ds) ≠ [] := by
  intro fuel
  induction fuel with
  | zero => intro n c ds; simp [Nat.toDigitsCore]
  | succ f ih =>
    intro n c ds
    simp only [Nat.toDigitsCore]
    split
    · simp
    · exact ih _ _ _

theorem toDigitsCore_append : ∀ (fuel n : Nat) (ds : List Char),
    Nat.toDigitsCore 10 fuel n ds = Nat.toDigitsCore 10 fuel n [] ++ ds := by
  intro fuel
  induction fuel with
  | zero => intro n ds; simp [Nat.toDigitsCore]
  | succ f ih =>
    intro n ds
    simp only [Nat.toDigitsCore]
    split
    · simp
    · rw [ih (n / 10) (Nat.digitChar (n % 10) :: ds), ih (n / 10) [Nat.digitChar (n % 10)],
        List.append_assoc, List.singleton_append]

theorem toDigitsCore_fuel : ∀ (n fuel : Nat), n < fuel → ∀ ds : List Char,
    Nat.toDigitsCore 10 fuel n ds = Nat.toDigitsCore 10 (n + 1) n ds := by
  intro n
  induction n using Nat.strong_induction_on with
  | _ n ih =>
    intro fuel hf ds
    match fuel, hf with
    | f + 1, hf =>
      simp only [Nat.toDigitsCore]
      split
      · rfl
      · rename_i hdiv
        have hn : n ≠ 0 := by
          intro h0
          exact hdiv (by simp [h0])
        have hlt : n / 10 < n := Nat.div_lt_self (Nat.pos_of_ne_zero hn) (by norm_num)
        rw [ih (n / 10) hlt f (by omega), ih (n / 10) hlt n (by omega)]

theorem decode_toDigits : ∀ n : Nat, decodeDigits (Nat.toDigits 10 n) = n := by
  intro n
  induction n using Nat.strong_induction_on with
  | _ n ih =>
    show decodeDigits (Nat.toDigitsCore 10 (n + 1) n []) = n
    by_cases h : n / 10 = 0
    · have hn : n < 10 := by omega
      simp only [Nat.toDigitsCore, h, if_pos]
      simp [decodeDigits, Nat.mod_eq_of_lt hn, digitVal_digitChar n hn]
    · have hn : n ≠ 0 := by
        intro h0
        exact h (by simp [h0])
      have hlt : n / 10 < n := Nat.div_lt_self (Nat.pos_of_ne_zero hn) (by norm_num)
      have e1 : Nat.toDigitsCore 10 (n + 1) n [] =
          Nat.toDigitsCore 10 n (n / 10) [Nat.digitChar (n % 10)] := by
        simp only [Nat.toDigitsCore]
        rw [if_neg h]
      rw [e1, toDigitsCore_append, toDigitsCore_fuel (n / 10) n hlt]
      have e2 : decodeDigits (Nat.toDigitsCore 10 (n / 10 + 1) (n / 10) [] ++
          [Nat.digitChar (n % 10)]) =
          decodeDigits (Nat.toDigitsCore 10 (n / 10 + 1) (n / 10) []) * 10 +
            digitVal (Nat.digitChar (n % 10)) := by
        simp [decodeDigits, List.foldl_append]
      rw [e2, show Nat.toDigitsCore 10 (n / 10 + 1) (n / 10) ([] : List Char) =
        Nat.toDigits 10 (n / 10) from rfl, ih (n / 10) hlt,
        digitVal_digitChar (n % 10) (Nat.mod_lt _ (by norm_num))]
      omega

theorem natRepr_injective : Function.Injective Nat.repr := by
  intro a b h
  have hd : Nat.toDigits 10 a = Nat.toDigits 10 b := congrArg String.data h
  have h3 := congrArg decodeDigits hd
  rwa [decode_toDigits, decode_toDigits] at h3

theorem toDigits_ne_nil (n : Nat) : Nat.toDigits 10 n ≠ [] := by
  show Nat.toDigitsCore 10 (n + 1) n [] ≠ []
  simp only [Nat.toDigitsCore]
  split
  · simp
  · exact toDigitsCore_ne_nil _ _ _ _

theorem append_repr_injective (base : String) :
    Function.Injective (fun k => base ++ Nat.repr k) := by
  intro i j h
  apply natRepr_injective
  have h2 := congrArg String.data h
  simp only [String.data_append] at h2
  have h3 := List.append_cancel_left h2
  exact String.ext h3

theorem base_ne_append_repr (base : String) (k : Nat) : base ≠ base ++ Nat.repr k := by
  intro h
  have h2 := congrArg (fun s => s.data.length) h
  simp only [String.data_append, List.length_append] at h2
  have h3 : (Nat.repr k).data.length = 0 := by omega
  have h4 : (Nat.repr k).data = [] := List.length_eq_zero.mp h3
  exact toDigits_ne_nil k h4

theorem exists_free_suffix (taken : List String) (base : String) (counter fuel : Nat)
    (h : taken.length < fuel) :
    ∃ k, counter ≤ k ∧ k < counter + fuel ∧ (base ++ Nat.repr k) ∉ taken := by
  by_contra hc
  push_neg at hc
  have hsub : ((List.range' counter fuel).map (fun k => base ++ Nat.repr k)) ⊆ taken := by
    intro s hs
    rcases List.mem_map.mp hs with ⟨k, hk, rfl⟩
    have hm := List.mem_range'_1.mp hk
    exact hc k hm.1 hm.2
  have hnd : ((List.range' counter fuel).map (fun k => base ++ Nat.repr k)).Nodup :=
    (List.nodup_range' counter fuel).map (append_repr_injective base)
  have hle := (List.subperm_of_subset hnd hsub).length_le
  simp only [List.length_map, List.length_range'] at hle
  omega

theorem findFreeUsername_not_mem (taken : List String) (base : String) :
    ∀ (fuel counter : Nat) (username : String),
      (username ∉ taken ∨
        ∃ k, counter ≤ k ∧ k < counter + fuel ∧ (base ++ Nat.repr k) ∉ taken) →
      findFreeUsername taken base username counter fuel ∉ taken := by
  intro fuel
  induction fuel with
  | zero =>
    intro counter username h
    rcases h with h | ⟨k, h1, h2, _⟩
    · simpa [findFreeUsername] using h
    · omega
  | succ f ih =>
    intro counter username h
    by_cases hu : username ∈ taken
    · simp only [findFreeUsername, if_pos hu]
      apply ih
      rcases h with h | ⟨k, h1, h2, hk⟩
      · exact absurd hu h
      · rcases Nat.eq_or_lt_of_le h1 with rfl | hgt
        · exact Or.inl hk
        · exact Or.inr ⟨k, hgt, by omega, hk⟩
    · simpa [findFreeUsername, if_neg hu] using hu

theorem generate_username_not_taken (taken : List String) (athlete : AthleteProfile) :
    generate_username_from_strava taken athlete ∉ taken := by
  simp only [generate_username_from_strava]
  exact findFreeUsername_not_mem taken _ _ _ _
    (Or.inr (exists_free_suffix taken _ 1 (taken.length + 1) (by omega)))

theorem countP_eq_zero_of_find?_none {α : Type} (l : List α) (p : α → Bool)
    (h : l.find? p = none) : l.countP p = 0 := by
  rw [List.countP_eq_zero]
  intro a ha
  exact List.find?_eq_none.mp h a ha

theorem countP_stravaId_map (l : List StravaActivityRec)
    (f : StravaActivityRec → StravaActivityRec)
    (hf : ∀ r, (f r).stravaId = r.stravaId) (k : Nat) :
    (l.map f).countP (fun r => r.stravaId == k) =
      l.countP (fun r => r.stravaId == k) := by
  induction l with
  | nil => simp
  | cons a l ih => simp [List.countP_cons, hf, ih]

/-- C4: activity ingestion is idempotent under the external activity id —
ingesting the same external id twice (with the same or different field
values) leaves exactly one stored record, the second ingestion overwrites
the mutable fields in place and contributes 0 to the inserted count; items
whose type tag is not exactly the ride tag are discarded unchanged. -/
theorem claim_C4_ingest_idempotent :
    (∀ (recs : List StravaActivityRec) (uid now now2 : Nat) (it it2 : ActivityItem),
      it.itemType = "Ride" → it2.itemType = "Ride" → it2.itemId = it.itemId →
      recs.find? (fun r => r.stravaId == it.itemId) = none →
      (ingestItem recs uid now it).2 = 1 ∧
      (ingestItem (ingestItem recs uid now it).1 uid now2 it2).2 = 0 ∧
      (ingestItem (ingestItem recs uid now it).1 uid now2 it2).1.countP
        (fun r => r.stravaId == it.itemId) = 1 ∧
      (∀ r ∈ (ingestItem (ingestItem recs uid now it).1 uid now2 it2).1,
        r.stravaId = it.itemId →
        r.name = it2.name ∧ r.distanceMeters = it2.distance ∧
        r.movingTimeSeconds = it2.movingTime ∧
        r.totalElevationGain = it2.elevationGain ∧
        r.averageSpeed = it2.averageSpeed ∧ r.maxSpeed = it2.maxSpeed ∧
        r.syncedAt = now2)) ∧
    (∀ (recs : List StravaActivityRec) (uid now : Nat) (it3 : ActivityItem),
      it3.itemType ≠ "Ride" → ingestItem recs uid now it3 = (recs, 0)) := by
  constructor
  · intro recs uid now now2 it it2 h1 h2 h3 h4
    have hbne1 : (it.itemType != "Ride") = false := by simp [h1]
    have hbne2 : (it2.itemType != "Ride") = false := by simp [h2]
    obtain ⟨R, e1, hR2⟩ :
        ∃ R : StravaActivityRec, ingestItem recs uid now it = (recs ++ [R], 1) ∧
          R.stravaId = it.itemId :=
      ⟨⟨it.itemId, uid, it.name, it.itemType, it.distance, it.movingTime,
        it.elapsedTime, it.elevationGain, it.startDate, it.startDateLocal,
        it.averageSpeed, it.maxSpeed, now⟩,
       by simp [ingestItem, hbne1, h4], rfl⟩
    have hprev : recs.find? (fun r => r.stravaId == it2.itemId) = none := by
      rw [h3]; exact h4
    have hfind2 : (recs ++ [R]).find? (fun r => r.stravaId == it2.itemId) = some R := by
      rw [List.find?_append, hprev]
      simp [List.find?, hR2, h3]
    have e2 : ingestItem (recs ++ [R]) uid now2 it2 =
        ((recs ++ [R]).map (fun r =>
          if r.stravaId == it2.itemId then
            { r with name := it2.name, distanceMeters := it2.distance,
                     movingTimeSeconds := it2.movingTime,
                     totalElevationGain := it2.elevationGain,
                     averageSpeed := it2.averageSpeed, maxSpeed := it2.maxSpeed,
                     syncedAt := now2 }
          else r), 0) := by
      simp only [ingestItem, hbne2, Bool.false_eq_true, if_false, hfind2]
    refine ⟨by rw [e1], by rw [e1, e2], ?_, ?_⟩
    · rw [e1, e2]
      rw [countP_stravaId_map _ _ (fun r => by
        by_cases hc : (r.stravaId == it2.itemId) = true <;> simp [hc])]
      rw [List.countP_append, countP_eq_zero_of_find?_none recs _ h4]
      simp [List.countP_cons, hR2]
    · rw [e1, e2]
      intro r hr hrid
      rcases List.mem_map.mp hr with ⟨r0, _hr0, rfl⟩
      by_cases hc : (r0.stravaId == it2.itemId) = true
      · simp [hc]
      · simp only [hc, Bool.false_eq_true, if_false] at hrid
        exact absurd (by rw [h3, hrid]; simp) hc
  · intro recs uid now it3 h
    simp [ingestItem, bne_iff_ne, h]

/-- Witness for C4 at a concrete ride ingested twice with changed fields. -/
theorem claim_C4_witness :
    (ingestItem [] 9 100 sampleRide).2 = 1 ∧
    (ingestItem (ingestItem [] 9 100 sampleRide).1 9 200 sampleRide2).2 = 0 ∧
    (ingestItem (ingestItem [] 9 100 sampleRide).1 9 200 sampleRide2).1.countP
      (fun r => r.stravaId == sampleRide.itemId) = 1 ∧
    ingestItem [] 9 300 sampleEbike = ([], 0) := by
  have h := claim_C4_ingest_idempotent.1 [] 9 100 200 sampleRide sampleRide2
    rfl rfl rfl rfl
  exact ⟨h.1, h.2.1, h.2.2.1,
    claim_C4_ingest_idempotent.2 [] 9 300 sampleEbike (by decide)⟩

/-- C5: consuming a valid email-verification token yields the verified
outcome, marks every stored copy of that token used, and moves its owner —
in particular an owner in `pending_email_verification` — to
`pending_approval` with `email_verified_at` set to the current time. -/
theorem claim_C5_verify_email_success (db : AuthDb) (s : String) (now : Nat)
    (v : EmailVerificationToken)
    (hfind : db.tokens.find? (fun t => t.token == s) = some v)
    (hvalid : v.is_valid now = true) :
    (verify_email db s now).1 = .verified ∧
    (∀ t ∈ (verify_email db s now).2.tokens, t.token = s → t.usedAt = some now) ∧
    (∀ u ∈ db.users, u.id = v.userId → u.state = .pendingEmailVerification →
      { u with state := UserState.pendingApproval, emailVerifiedAt := some now } ∈
        (verify_email db s now).2.users) := by
  have hval2 : (!v.is_valid now) = false := by simp [hvalid]
  have e : verify_email db s now =
      (.verified,
        { users := db.users.map (fun u =>
            if u.id == v.userId then
              { u with state := UserState.pendingApproval, emailVerifiedAt := some now }
            else u),
          tokens := db.tokens.map (fun t =>
            if t.token == s then { t with usedAt := some now } else t) }) := by
    simp [verify_email, hfind, hval2]
  refine ⟨by rw [e], ?_, ?_⟩
  · rw [e]
    intro t ht hts
    rcases List.mem_map.mp ht with ⟨t0, _ht0, rfl⟩
    by_cases hc : (t0.token == s) = true
    · rw [if_pos hc]
    · simp only [hc, Bool.false_eq_true, if_false] at hts
      exact absurd (by rw [hts]; simp) hc
  · rw [e]
    intro u hu huid _hstate
    have heq : (u.id == v.userId) = true := by rw [huid]; simp
    have hm := List.mem_map_of_mem (fun u : UserRec =>
      if u.id == v.userId then
        { u with state := UserState.pendingApproval, emailVerifiedAt := some now }
      else u) hu
    simp only [heq, if_true] at hm
    exact hm

/-- Witness for C5: the freshly signed-up user is verified by its token. -/
theorem claim_C5_witness :
    (verify_email signupDb "tok-fresh" 100).1 = .verified ∧
    ({ pevUser with state := UserState.pendingApproval, emailVerifiedAt := some 100 } ∈
      (verify_email signupDb "tok-fresh" 100).2.users) := by
  have h := claim_C5_verify_email_success signupDb "tok-fresh" 100 freshToken
    (by decide) (by decide)
  exact ⟨h.1, h.2.2 pevUser (by decide) rfl rfl⟩

/-- C6: after a successful credential check, login yields the
state-determined outcome with a session exactly for `active`; the mapping
from states to outcomes is injective (all five states distinguishable in
the response), and `pending_email_verification` is routed to the
resend-verification flow. -/
theorem claim_C6_login_state_gate (users : List UserRec) (uname pw : String)
    (u : UserRec)
    (hfind : users.find? (fun x => x.username == uname || x.email == uname) = some u)
    (hpw : u.password = pw) :
    login users uname pw =
      (stateOutcome u.state, if u.state = .active then some u.id else none) ∧
    (∀ a b : UserState, stateOutcome a = stateOutcome b → a = b) ∧
    stateOutcome .pendingEmailVerification = .needsVerification := by
  refine ⟨?_, ?_, rfl⟩
  · have hp : (u.password != pw) = false := by simp [hpw]
    simp only [login, hfind, hp, Bool.false_eq_true, if_false]
    cases hs : u.state <;> simp [stateOutcome, hs]
  · intro a b h
    cases a <;> cases b <;> simp_all [stateOutcome]

/-- Witness for C6: the active member logs in, obtaining a session. -/
theorem claim_C6_witness :
    login [activeOwner] "inga" "pw123456" = (.loggedIn, some 8) ∧
    stateOutcome .pendingEmailVerification = .needsVerification := by
  have h := claim_C6_login_state_gate [activeOwner] "inga" "pw123456" activeOwner
    (by decide) (by decide)
  refine ⟨?_, h.2.2⟩
  rw [h.1]
  decide

/-- C1 counterexample: the suspend route moves a `rejected` member into
`suspended`, which is not an edge of the §4.1 graph, and consuming a
leftover valid token moves an `active` owner into `pending_approval`,
which is not an edge either. -/
theorem claim_C1_counterexample :
    ((members_suspend 99 .admin rejectedMember "abuse").1 = .suspended ∧
      (members_suspend 99 .admin rejectedMember "abuse").2.state = .suspended ∧
      rejectedMember.state = .rejected ∧
      legalTransition rejectedMember.state .suspended = false) ∧
    ((verify_email staleDb "tok-leftover" 100).1 = .verified ∧
      activeOwner.state = .active ∧
      (verify_email staleDb "tok-leftover" 100).2.users.all
        (fun u => u.state == .pendingApproval) = true ∧
      legalTransition activeOwner.state .pendingApproval = false) := by
  decide

/-- C1 amended: approve, reject and reactivate each guard on the current
state and perform only legal §4.1 edges (otherwise leaving the user
unchanged), but the suspend route never inspects the member's current state
— any non-self, non-admin-protected member is moved into `suspended` from
whatever state it is in — and email verification moves the token's owner
into `pending_approval` regardless of the owner's current state. -/
theorem claim_C1_amended_transitions :
    (∀ (u : UserRec) (aid now : Nat),
      (approve_user u aid now).2 = u ∨
      (u.state = .pendingApproval ∧ (approve_user u aid now).2.state = .active ∧
        legalTransition u.state (approve_user u aid now).2.state = true)) ∧
    (∀ (u : UserRec) (reason : String),
      (reject_user u reason).2 = u ∨
      (u.state = .pendingApproval ∧ (reject_user u reason).2.state = .rejected ∧
        legalTransition u.state (reject_user u reason).2.state = true)) ∧
    (∀ u : UserRec,
      (members_reactivate u).2 = u ∨
      ((u.state = .suspended ∨ u.state = .rejected) ∧
        (members_reactivate u).2.state = .active ∧
        legalTransition u.state (members_reactivate u).2.state = true)) ∧
    (∀ (actorId : Nat) (actorRole : UserRole) (u : UserRec) (reason : String),
      (members_suspend actorId actorRole u reason).1 = .suspended →
      (members_suspend actorId actorRole u reason).2.state = .suspended) ∧
    (∀ (db : AuthDb) (s : String) (now : Nat) (v : EmailVerificationToken),
      db.tokens.find? (fun t => t.token == s) = some v → v.is_valid now = true →
      ∀ u ∈ db.users, u.id = v.userId →
        { u with state := UserState.pendingApproval, emailVerifiedAt := some now } ∈
          (verify_email db s now).2.users) := by
  refine ⟨?_, ?_, ?_, ?_, ?_⟩
  · intro u aid now
    by_cases h : u.state = .pendingApproval
    · right
      refine ⟨h, ?_, ?_⟩ <;> simp [approve_user, h, legalTransition]
    · left
      have hb : (u.state != UserState.pendingApproval) = true := by
        simp [bne_iff_ne, h]
      simp [approve_user, hb]
  · intro u reason
    by_cases h : u.state = .pendingApproval
    · right
      refine ⟨h, ?_, ?_⟩ <;> simp [reject_user, h, legalTransition]
    · left
      have hb : (u.state != UserState.pendingApproval) = true := by
        simp [bne_iff_ne, h]
      simp [reject_user, hb]
  · intro u
    cases hs : u.state
    · left; simp [members_reactivate, hs]
    · left; simp [members_reactivate, hs]
    · left; simp [members_reactivate, hs]
    · right
      refine ⟨Or.inr rfl, ?_, ?_⟩ <;> simp [members_reactivate, hs, legalTransition]
    · right
      refine ⟨Or.inl rfl, ?_, ?_⟩ <;> simp [members_reactivate, hs, legalTransition]
  · intro actorId actorRole u reason h
    by_cases h1 : (u.id == actorId) = true
    · simp [members_suspend, h1] at h
    · by_cases h2 : (u.role == UserRole.admin && actorRole != UserRole.admin) = true
      · simp [members_suspend, h1, h2] at h
      · simp [members_suspend, h1, h2]
  · intro db s now v hfind hvalid u hu huid
    have hval2 : (!v.is_valid now) = false := by simp [hvalid]
    have heq : (u.id == v.userId) = true := by rw [huid]; simp
    have hm := List.mem_map_of_mem (fun u : UserRec =>
      if u.id == v.userId then
        { u with state := UserState.pendingApproval, emailVerifiedAt := some now }
      else u) hu
    simp only [heq, if_true] at hm
    simp only [verify_email, hfind, hval2, Bool.false_eq_true, if_false]
    exact hm

/-- Witness for the amended C1: the concrete rejected member is suspended,
and the active owner of a leftover token lands in `pending_approval`. -/
theorem claim_C1_witness :
    (members_suspend 99 UserRole.admin rejectedMember "abuse").2.state = .suspended ∧
    ({ activeOwner with state := UserState.pendingApproval, emailVerifiedAt := some 100 } ∈
      (verify_email staleDb "tok-leftover" 100).2.users) := by
  refine ⟨claim_C1_amended_transitions.2.2.2.1 99 UserRole.admin rejectedMember "abuse"
    (by decide), ?_⟩
  exact claim_C1_amended_transitions.2.2.2.2 staleDb "tok-leftover" 100 leftoverToken
    (by decide) (by decide) activeOwner (by decide) (by decide)

/-- C2 counterexample: an already-used but unexpired token and an expired
but unused token produce one and the same outcome — the two failures are
not distinguished in what the caller receives. -/
theorem claim_C2_counterexample :
    usedToken.usedAt ≠ none ∧ (50 < usedToken.expiresAt) = true ∧
    expiredToken.usedAt = none ∧ (50 < expiredToken.expiresAt) = false ∧
    (verify_email tokenDb "tok-used" 50).1 = (verify_email tokenDb "tok-expired" 50).1 := by
  decide

/-- A token that fails `is_valid` is consumed to the single invalid outcome
with the store untouched (used and expired tokens are not told apart). -/
theorem verify_email_invalid (db : AuthDb) (s : String) (now : Nat)
    (v : EmailVerificationToken)
    (h1 : db.tokens.find? (fun t => t.token == s) = some v)
    (h2 : v.is_valid now = false) :
    verify_email db s now = (.expiredLink, db) := by
  simp [verify_email, h1, h2]

/-- C2 amended: consumption fails with the not-found outcome for an unknown
token string; when the validity invariant fails — expired or already used —
both cases yield one and the same invalid outcome (they are not
distinguished); only the OAuth flow-state consumer has a purpose check,
failing with a distinct purpose-mismatch error; consumption succeeds at
most once, a second attempt yielding that same undistinguished invalid
outcome. -/
theorem claim_C2_amended_token_consumption :
    (∀ (db : AuthDb) (s : String) (now : Nat),
      db.tokens.find? (fun t => t.token == s) = none →
      verify_email db s now = (.invalidLink, db)) ∧
    (∀ (db : AuthDb) (s : String) (now : Nat) (v : EmailVerificationToken),
      db.tokens.find? (fun t => t.token == s) = some v →
      v.is_valid now = false →
      verify_email db s now = (.expiredLink, db)) ∧
    (∀ (db : AuthDb) (s : String) (now now2 : Nat),
      (verify_email db s now).1 = .verified →
      (verify_email (verify_email db s now).2 s now2).1 = .expiredLink) ∧
    (∀ (states : List OAuthStateRec) (value purpose : String) (now : Nat)
        (st : OAuthStateRec),
      states.find? (fun x => x.state == value) = some st →
      st.is_valid now = true → st.purpose ≠ purpose →
      validate_oauth_state states value purpose now = .error .purposeMismatch) := by
  refine ⟨?_, ?_, ?_, ?_⟩
  · intro db s now h
    simp [verify_email, h]
  · intro db s now v h1 h2
    exact verify_email_invalid db s now v h1 h2
  · intro db s now now2 h
    cases hf : db.tokens.find? (fun t => t.token == s) with
    | none => simp [verify_email, hf] at h
    | some v =>
      by_cases hv : (!v.is_valid now) = true
      · simp [verify_email, hf, hv] at h
      · have hv2 : (!v.is_valid now) = false := by simpa using hv
        have e : (verify_email db s now).2.tokens = db.tokens.map (fun t =>
            if t.token == s then { t with usedAt := some now } else t) := by
          simp [verify_email, hf, hv2]
        have hvmem : v ∈ db.tokens := List.mem_of_find?_eq_some hf
        have hvp := List.find?_some hf
        have hsome : ((verify_email db s now).2.tokens.find?
            (fun t => t.token == s)).isSome := by
          rw [e, List.find?_isSome]
          refine ⟨if v.token == s then { v with usedAt := some now } else v,
            List.mem_map_of_mem _ hvmem, ?_⟩
          rw [if_pos hvp]
          exact hvp
        obtain ⟨w, hw⟩ := Option.isSome_iff_exists.mp hsome
        have hwmem : w ∈ (verify_email db s now).2.tokens :=
          List.mem_of_find?_eq_some hw
        have hwp := List.find?_some hw
        have hwused : w.usedAt = some now := by
          rw [e] at hwmem
          rcases List.mem_map.mp hwmem with ⟨t0, _ht0, rfl⟩
          by_cases hc : (t0.token == s) = true
          · rw [if_pos hc]
          · rw [if_neg hc] at hwp
            exact absurd hwp hc
        have hwinvalid : w.is_valid now2 = false := by
          simp [EmailVerificationToken.is_valid, hwused]
        rw [verify_email_invalid _ s now2 w hw hwinvalid]
  · intro states value purpose now st h1 h2 h3
    have hv : (!st.is_valid now) = false := by simp [h2]
    have hp : (st.purpose != purpose) = true := by simp [bne_iff_ne, h3]
    simp [validate_oauth_state, h1, hv, hp]

/-- Witness for the amended C2 at concrete tokens and flow-states. -/
theorem claim_C2_witness :
    verify_email tokenDb "tok-unknown" 50 = (.invalidLink, tokenDb) ∧
    verify_email tokenDb "tok-used" 50 = (.expiredLink, tokenDb) ∧
    (verify_email (verify_email signupDb "tok-fresh" 100).2 "tok-fresh" 100).1 =
      .expiredLink ∧
    validate_oauth_state [connectState] "st-connect" "login" 50 =
      .error .purposeMismatch := by
  refine ⟨claim_C2_amended_token_consumption.1 tokenDb "tok-unknown" 50 (by decide),
    claim_C2_amended_token_consumption.2.1 tokenDb "tok-used" 50 usedToken
      (by decide) (by decide),
    claim_C2_amended_token_consumption.2.2.1 signupDb "tok-fresh" 100 100 (by decide),
    claim_C2_amended_token_consumption.2.2.2 [connectState] "st-connect" "login" 50
      connectState (by decide) (by decide) (by decide)⟩

/-- C9 counterexample: rejecting a pending member with a reason and then
suspending the rejected member with another reason leaves both reason
fields non-null at once, and the surviving `rejectionReason` sits in state
`suspended` rather than `rejected`. -/
theorem claim_C9_counterexample :
    (members_suspend 99 .admin (reject_user pendingMember "spam").2 "abuse").2.rejectionReason
        = some "spam" ∧
    (members_suspend 99 .admin (reject_user pendingMember "spam").2 "abuse").2.suspendedReason
        = some "abuse" ∧
    (members_suspend 99 .admin (reject_user pendingMember "spam").2 "abuse").2.state
        = .suspended := by
  decide

/-- C9 amended: reactivation clears both reason fields, but the fields are
not mutually exclusive in general — reject sets only `rejectionReason` and
suspend sets only `suspendedReason`, each leaving the other untouched (as
does approve), so suspending a member with a non-null `rejectionReason`
yields both fields non-null and a reason outside its matching state. -/
theorem claim_C9_amended_reason_fields :
    (∀ u : UserRec, (members_reactivate u).1 = .done →
      (members_reactivate u).2.rejectionReason = none ∧
      (members_reactivate u).2.suspendedReason = none) ∧
    (∀ (actorId : Nat) (actorRole : UserRole) (u : UserRec) (reason : String),
      (members_suspend actorId actorRole u reason).2.rejectionReason =
        u.rejectionReason) ∧
    (∀ (u : UserRec) (reason : String),
      (reject_user u reason).2.suspendedReason = u.suspendedReason) ∧
    (∀ (u : UserRec) (aid now : Nat),
      (approve_user u aid now).2.rejectionReason = u.rejectionReason ∧
      (approve_user u aid now).2.suspendedReason = u.suspendedReason) := by
  refine ⟨?_, ?_, ?_, ?_⟩
  · intro u h
    by_cases hc : (u.state != UserState.suspended && u.state != UserState.rejected) = true
    · simp [members_reactivate, hc] at h
    · have hc2 : (u.state != UserState.suspended && u.state != UserState.rejected) = false := by
        simpa using hc
      simp [members_reactivate, hc2]
  · intro actorId actorRole u reason
    by_cases h1 : (u.id == actorId) = true
    · simp [members_suspend, h1]
    · by_cases h2 : (u.role == UserRole.admin && actorRole != UserRole.admin) = true
      · simp [members_suspend, h1, h2]
      · simp [members_suspend, h1, h2]
  · intro u reason
    by_cases h : (u.state != UserState.pendingApproval) = true
    · simp [reject_user, h]
    · have h2 : (u.state != UserState.pendingApproval) = false := by simpa using h
      simp [reject_user, h2]
  · intro u aid now
    by_cases h : (u.state != UserState.pendingApproval) = true
    · simp [approve_user, h]
    · have h2 : (u.state != UserState.pendingApproval) = false := by simpa using h
      simp [approve_user, h2]

/-- Witness for the amended C9 at the concrete rejected member. -/
theorem claim_C9_witness :
    (members_reactivate rejectedMember).2.rejectionReason = none ∧
    (members_reactivate rejectedMember).2.suspendedReason = none ∧
    (members_suspend 99 UserRole.admin rejectedMember "abuse").2.rejectionReason =
      some "spam" := by
  have h1 := claim_C9_amended_reason_fields.1 rejectedMember (by decide)
  have h2 := claim_C9_amended_reason_fields.2.1 99 UserRole.admin rejectedMember "abuse"
  refine ⟨h1.1, h1.2, ?_⟩
  rw [h2]
  decide

theorem athleteUnique_map (links : List StravaTokenRec)
    (f : StravaTokenRec → StravaTokenRec)
    (hf : ∀ t, (f t).stravaAthleteId = t.stravaAthleteId)
    (h : athleteUnique links) : athleteUnique (links.map f) := by
  unfold athleteUnique at h ⊢
  refine List.Pairwise.map f ?_ h
  intro a b hab
  rw [hf a, hf b]
  exact hab

theorem athleteUnique_append (links : List StravaTokenRec) (t : StravaTokenRec)
    (h : athleteUnique links)
    (hnone : ∀ x ∈ links, x.stravaAthleteId ≠ t.stravaAthleteId) :
    athleteUnique (links ++ [t]) := by
  unfold athleteUnique at h ⊢
  rw [List.pairwise_append]
  refine ⟨h, List.pairwise_singleton _ _, ?_⟩
  intro a ha b hb
  simp only [List.mem_singleton] at hb
  subst hb
  exact hnone a ha

theorem connectUpsert_athleteUnique (links : List StravaTokenRec) (uid aid : Nat)
    (acc ref : String) (exp : Nat) (h : athleteUnique links)
    (hins : (links.find? (fun t => t.userId == uid)).isSome = false →
      ∀ x ∈ links, x.stravaAthleteId ≠ aid) :
    athleteUnique (connectUpsert links uid aid acc ref exp) := by
  unfold connectUpsert
  by_cases hc : (links.find? (fun t => t.userId == uid)).isSome = true
  · rw [if_pos hc]
    exact athleteUnique_map links _ (fun t => by
      by_cases h2 : (t.userId == uid) = true <;> simp [h2]) h
  · rw [if_neg hc]
    exact athleteUnique_append links _ h (hins (by simpa using hc))

/-- C3: the connect callback rejects an athlete id already linked to a
different local user without touching the link table, and both ways of
establishing a link — connect-flow reconciliation and login-flow account
origination — preserve the at-most-one-link-per-athlete-id invariant. -/
theorem claim_C3_athlete_link_unique :
    (∀ (links : List StravaTokenRec) (uid aid : Nat) (acc ref : String)
        (exp : Nat) (t : StravaTokenRec),
      links.find? (fun x => x.stravaAthleteId == aid) = some t → t.userId ≠ uid →
      connect_link links uid aid acc ref exp = (.alreadyLinkedToAnother, links)) ∧
    (∀ (links : List StravaTokenRec) (uid aid : Nat) (acc ref : String) (exp : Nat),
      athleteUnique links →
      athleteUnique (connect_link links uid aid acc ref exp).2) ∧
    (∀ (db : SiteDb) (stateValue : String) (exch : Option LoginExchange)
        (now nextUserId : Nat) (randomPw : String),
      athleteUnique db.links →
      athleteUnique (login_callback db stateValue exch now nextUserId randomPw).2.links) := by
  refine ⟨?_, ?_, ?_⟩
  · intro links uid aid acc ref exp t hfind hne
    have hb : (t.userId != uid) = true := by simp [bne_iff_ne, hne]
    simp [connect_link, hfind, hb]
  · intro links uid aid acc ref exp h
    cases hf : links.find? (fun x => x.stravaAthleteId == aid) with
    | none =>
      simp only [connect_link, hf]
      apply connectUpsert_athleteUnique _ _ _ _ _ _ h
      intro _ x hx
      have hx2 := List.find?_eq_none.mp hf x hx
      simpa using hx2
    | some t =>
      simp only [connect_link, hf]
      by_cases ht : (t.userId != uid) = true
      · rw [if_pos ht]
        exact h
      · rw [if_neg ht]
        apply connectUpsert_athleteUnique _ _ _ _ _ _ h
        intro hfalse
        exfalso
        have htu : t.userId = uid := by
          by_contra hne
          exact ht (by simp [bne_iff_ne, hne])
        have hsome : (links.find? (fun x => x.userId == uid)).isSome = true := by
          rw [List.find?_isSome]
          exact ⟨t, List.mem_of_find?_eq_some hf, by simp [htu]⟩
        rw [hsome] at hfalse
        simp at hfalse
  · intro db stateValue exch now nextUserId randomPw h
    cases hval : validate_oauth_state db.oauthStates stateValue "login" now with
    | error e =>
      simp only [login_callback, hval]
      exact h
    | ok pr =>
      obtain ⟨st, states'⟩ := pr
      cases exch with
      | none =>
        simp only [login_callback, hval]
        exact h
      | some ex =>
        cases hai : ex.athlete.athleteId with
        | none =>
          simp only [login_callback, hval, hai]
          exact h
        | some aid =>
          cases hfl : db.links.find? (fun t => t.stravaAthleteId == aid) with
          | some t =>
            cases hfu : db.users.find? (fun u => u.id == t.userId) with
            | none =>
              simp only [login_callback, hval, hai, hfl, hfu]
              exact h
            | some user =>
              simp only [login_callback, hval, hai, hfl, hfu]
              by_cases hst : (user.state != UserState.active) = true
              · rw [if_pos hst]
                split
                · exact h
                · split
                  · exact h
                  · exact h
              · rw [if_neg hst]
                exact athleteUnique_map db.links _ (fun l => by
                  by_cases h2 : (l.stravaAthleteId == aid) = true <;> simp [h2]) h
          | none =>
            simp only [login_callback, hval, hai, hfl]
            apply athleteUnique_append db.links _ h
            intro x hx
            have hx2 := List.find?_eq_none.mp hfl x hx
            simpa using hx2

/-- Witness for C3: linking athlete 888 from user 1 is rejected since it
belongs to user 2; re-linking user 1's own athlete 777 keeps uniqueness. -/
theorem claim_C3_witness :
    connect_link [linkA, linkB] 1 888 "acc2" "ref2" 9500 =
      (.alreadyLinkedToAnother, [linkA, linkB]) ∧
    athleteUnique (connect_link [linkA, linkB] 1 777 "acc2" "ref2" 9500).2 := by
  refine ⟨claim_C3_athlete_link_unique.1 [linkA, linkB] 1 888 "acc2" "ref2" 9500
    linkB (by decide) (by decide), ?_⟩
  apply claim_C3_athlete_link_unique.2.1 [linkA, linkB] 1 777 "acc2" "ref2" 9500
  simp [athleteUnique, linkA, linkB]

/-- A flow-state failing `is_valid` is refused with the invalid error. -/
theorem validate_oauth_state_invalid (states : List OAuthStateRec)
    (value purpose : String) (now : Nat) (st : OAuthStateRec)
    (h1 : states.find? (fun x => x.state == value) = some st)
    (h2 : st.is_valid now = false) :
    validate_oauth_state states value purpose now = .error .invalid := by
  simp [validate_oauth_state, h1, h2]

/-- C10: a valid connect flow-state is consumed before the owner check runs:
presented by an authenticated caller other than its owner, the callback
rejects with the owner-mismatch outcome and leaves the links untouched, yet
the flow-state is marked used, so any repeat attempt with the same
flow-state fails as invalid rather than as an owner mismatch. -/
theorem claim_C10_state_consumed_before_owner_check
    (db : StravaDb) (uid : Nat) (stateValue : String) (now : Nat)
    (st : OAuthStateRec)
    (hfind : db.oauthStates.find? (fun x => x.state == stateValue) = some st)
    (hvalid : st.is_valid now = true)
    (hpurpose : st.purpose = "connect")
    (howner : st.userId ≠ some uid) :
    ∀ exch : Option ConnectExchange,
      (callback db uid stateValue exch now).1 = .ownerMismatch ∧
      (callback db uid stateValue exch now).2.links = db.links ∧
      (∀ t ∈ (callback db uid stateValue exch now).2.oauthStates,
        t.state = stateValue → t.usedAt = some now) ∧
      (∀ (uid2 : Nat) (exch2 : Option ConnectExchange) (now2 : Nat),
        (callback (callback db uid stateValue exch now).2 uid2 stateValue exch2 now2).1 =
          .stateFailed .invalid) := by
  intro exch
  have hvb : (!st.is_valid now) = false := by simp [hvalid]
  have hpb : (st.purpose != "connect") = false := by simp [hpurpose]
  have hval : validate_oauth_state db.oauthStates stateValue "connect" now =
      .ok ({ st with usedAt := some now },
        db.oauthStates.map (fun t =>
          if t.state == stateValue then { t with usedAt := some now } else t)) := by
    simp [validate_oauth_state, hfind, hvb, hpb]
  have hob : (({ st with usedAt := some now } : OAuthStateRec).userId != some uid) =
      true := by
    simp [bne_iff_ne]
    exact howner
  have e : callback db uid stateValue exch now =
      (.ownerMismatch,
        { db with oauthStates := db.oauthStates.map (fun t =>
            if t.state == stateValue then { t with usedAt := some now } else t) }) := by
    simp only [callback, hval, hob, if_true]
  refine ⟨by rw [e], by rw [e], ?_, ?_⟩
  · rw [e]
    intro t ht hts
    rcases List.mem_map.mp ht with ⟨t0, _ht0, rfl⟩
    by_cases hc : (t0.state == stateValue) = true
    · rw [if_pos hc]
    · simp only [hc, Bool.false_eq_true, if_false] at hts
      exact absurd (by rw [hts]; simp) hc
  · intro uid2 exch2 now2
    rw [e]
    have hvmem : st ∈ db.oauthStates := List.mem_of_find?_eq_some hfind
    have hvp := List.find?_some hfind
    have hsome : ((db.oauthStates.map (fun t =>
        if t.state == stateValue then { t with usedAt := some now } else t)).find?
          (fun x => x.state == stateValue)).isSome = true := by
      rw [List.find?_isSome]
      refine ⟨if st.state == stateValue then { st with usedAt := some now } else st,
        List.mem_map_of_mem _ hvmem, ?_⟩
      rw [if_pos hvp]
      exact hvp
    obtain ⟨w, hw⟩ := Option.isSome_iff_exists.mp hsome
    have hwmem := List.mem_of_find?_eq_some hw
    have hwp := List.find?_some hw
    have hwused : w.usedAt = some now := by
      rcases List.mem_map.mp hwmem with ⟨t0, _ht0, rfl⟩
      by_cases hc : (t0.state == stateValue) = true
      · rw [if_pos hc]
      · rw [if_neg hc] at hwp
        exact absurd hwp hc
    have hwinvalid : w.is_valid now2 = false := by
      simp [OAuthStateRec.is_valid, hwused]
    have hval2 : validate_oauth_state (db.oauthStates.map (fun t =>
        if t.state == stateValue then { t with usedAt := some now } else t))
          stateValue "connect" now2 = .error .invalid :=
      validate_oauth_state_invalid _ _ _ _ w hw hwinvalid
    simp only [callback, hval2]

/-- Witness for C10 at the concrete connect database: user 2 presents user
1's flow-state; the retry fails as invalid. -/
theorem claim_C10_witness :
    (callback connectDb 2 "st-connect" none 50).1 = .ownerMismatch ∧
    (callback connectDb 2 "st-connect" none 50).2.links = connectDb.links ∧
    (callback (callback connectDb 2 "st-connect" none 50).2 2 "st-connect" none 60).1 =
      .stateFailed .invalid := by
  have h := claim_C10_state_consumed_before_owner_check connectDb 2 "st-connect" 50
    connectState (by decide) (by decide) (by decide) (by decide) none
  exact ⟨h.1, h.2.1, h.2.2.2 2 none 60⟩

/-- Every loop entry with fuel left performs at least one page request. -/
theorem syncLoop_pos (fp : Nat → Nat → Option (List ActivityItem))
    (uid now fuel page : Nat) (recs : List StravaActivityRec) (cnt : Nat) :
    1 ≤ (syncLoop fp uid now (fuel + 1) page recs cnt).1 := by
  unfold syncLoop
  split
  · simp
  · split
    · simp
    · split
      split
      · simp
      · split
        omega

set_option maxRecDepth 10000 in
/-- C8: the fetch phase requests pages of the fixed page size 50 starting
at page 1; a page of exactly 50 items always causes a further page request,
a nonempty page of fewer than 50 items ends the loop with that request, and
the concrete provider returning pages of 50, 50 and 10 items is exhausted
after exactly three page requests. -/
theorem claim_C8_pagination :
    (∀ (fp : Nat → Nat → Option (List ActivityItem)) (uid now fuel page : Nat)
        (recs : List StravaActivityRec) (cnt : Nat) (acts : List ActivityItem),
      fp page 50 = some acts → acts.length = 50 →
      2 ≤ (syncLoop fp uid now (fuel + 2) page recs cnt).1) ∧
    (∀ (fp : Nat → Nat → Option (List ActivityItem)) (uid now fuel page : Nat)
        (recs : List StravaActivityRec) (cnt : Nat) (acts : List ActivityItem),
      fp page 50 = some acts → acts ≠ [] → acts.length < 50 →
      (syncLoop fp uid now (fuel + 1) page recs cnt).1 = 1) ∧
    (sync threePages 9 100 [] 5).1 = 3 := by
  refine ⟨?_, ?_, ?_⟩
  · intro fp uid now fuel page recs cnt acts hf hlen
    have hne : acts.isEmpty = false := by
      cases acts with
      | nil => simp at hlen
      | cons a l => simp
    show 2 ≤ (syncLoop fp uid now (fuel + 1 + 1) page recs cnt).1
    unfold syncLoop
    rw [hf]
    simp only [hne, Bool.false_eq_true, if_false]
    split
    · omega
    · have hpos := syncLoop_pos fp uid now fuel (page + 1)
        (ingestPage recs uid now acts).1 (cnt + (ingestPage recs uid now acts).2)
      change 2 ≤ _ + 1
      omega
  · intro fp uid now fuel page recs cnt acts hf hne hlt
    have hne2 : acts.isEmpty = false := by
      cases acts with
      | nil => exact absurd rfl hne
      | cons a l => simp
    unfold syncLoop
    rw [hf]
    simp only [hne2, Bool.false_eq_true, if_false]
    split
    · rfl
    · omega
  · decide

/-- Witness for C8: the 50-item first page forces a second request, and a
loop entered at the short third page stops after one request. -/
theorem claim_C8_witness :
    2 ≤ (syncLoop threePages 9 100 5 1 [] 0).1 ∧
    (syncLoop threePages 9 100 3 3 [] 0).1 = 1 := by
  refine ⟨?_, ?_⟩
  · exact claim_C8_pagination.1 threePages 9 100 3 1 [] 0 (ridePage 100 50) rfl
      (by simp [ridePage])
  · exact claim_C8_pagination.2.1 threePages 9 100 2 3 [] 0 (ridePage 300 10) rfl
      (by simp [ridePage]) (by simp [ridePage])

/-- C7: a login callback whose athlete id has no existing link originates a
new user in `pending_approval` with `email_verified_at` stamped at once,
the supplied random credential as its only local password, the placeholder
provider email, a username derived from the athlete's first/last name that
collides with no existing username (a free base name is used as is; on
collision numeric suffixes starting at 1 are tried), a link row for the
athlete id, and fires the pending-approval admin notification. -/
theorem claim_C7_oauth_signup (db : SiteDb) (stateValue : String)
    (ex : LoginExchange) (now nextUserId : Nat) (randomPw : String) (aid : Nat)
    (st : OAuthStateRec) (states' : List OAuthStateRec)
    (hval : validate_oauth_state db.oauthStates stateValue "login" now =
      .ok (st, states'))
    (hai : ex.athlete.athleteId = some aid)
    (hfl : db.links.find? (fun t => t.stravaAthleteId == aid) = none) :
    (login_callback db stateValue (some ex) now nextUserId randomPw).1 =
      .accountCreated (generate_username_from_strava
        (db.users.map (fun u => u.username)) ex.athlete) ∧
    (login_callback db stateValue (some ex) now nextUserId randomPw).2.users =
      db.users ++
        [{ id := nextUserId
           username := generate_username_from_strava
             (db.users.map (fun u => u.username)) ex.athlete
           email := "strava_" ++ Nat.repr aid ++ "@strava.local"
           password := randomPw
           displayName :=
             if pyStrip (ex.athlete.firstname ++ " " ++ ex.athlete.lastname) = "" then
               generate_username_from_strava
                 (db.users.map (fun u => u.username)) ex.athlete
             else pyStrip (ex.athlete.firstname ++ " " ++ ex.athlete.lastname)
           role := .user
           state := .pendingApproval
           emailVerifiedAt := some now
           approvedAt := none
           approvedById := none
           rejectionReason := none
           suspendedReason := none
           leaderboardOptIn := false }] ∧
    (login_callback db stateValue (some ex) now nextUserId randomPw).2.links =
      db.links ++ [⟨nextUserId, aid, ex.accessToken, ex.refreshToken, ex.expiresAt⟩] ∧
    (login_callback db stateValue (some ex) now nextUserId randomPw).2.adminNotifications =
      db.adminNotifications ++ [nextUserId] ∧
    generate_username_from_strava (db.users.map (fun u => u.username)) ex.athlete ∉
      db.users.map (fun u => u.username) ∧
    (∀ (taken : List String) (base : String), base ∉ taken →
      findFreeUsername taken base base 1 (taken.length + 1) = base) ∧
    (∀ (taken : List String) (base : String), base ∈ taken → (base ++ "1") ∉ taken →
      findFreeUsername taken base base 1 (taken.length + 1) = base ++ "1") := by
  refine ⟨?_, ?_, ?_, ?_, generate_username_not_taken _ _, ?_, ?_⟩
  · simp [login_callback, hval, hai, hfl]
  · simp [login_callback, hval, hai, hfl]
  · simp [login_callback, hval, hai, hfl]
  · simp [login_callback, hval, hai, hfl]
  · intro taken base h
    unfold findFreeUsername
    rw [if_neg h]
  · intro taken base h1 h2
    obtain ⟨n, hn⟩ : ∃ n, taken.length = n + 1 := by
      cases taken with
      | nil => simp at h1
      | cons a l => exact ⟨l.length, rfl⟩
    rw [hn]
    unfold findFreeUsername
    rw [if_pos h1]
    unfold findFreeUsername
    rw [show Nat.repr 1 = "1" from by decide]
    rw [if_neg h2]

/-- Witness for C7: an unseen athlete's first login creates the fresh
`pending_approval` user `annab` and notifies the admins. -/
theorem claim_C7_witness :
    (login_callback loginDb "st-login" (some annaExchange) 100 42 "slumplosen").1 =
      .accountCreated "annab" ∧
    (login_callback loginDb "st-login"
      (some annaExchange) 100 42 "slumplosen").2.adminNotifications = [42] ∧
    "annab" ∉ loginDb.users.map (fun u => u.username) := by
  have h := claim_C7_oauth_signup loginDb "st-login" annaExchange 100 42 "slumplosen"
    424242 { loginState with usedAt := some 100 }
    [{ loginState with usedAt := some 100 }] rfl rfl rfl
  have he : generate_username_from_strava (loginDb.users.map (fun u => u.username))
      annaExchange.athlete = "annab" := by decide
  refine ⟨?_, ?_, ?_⟩
  · rw [h.1, he]
  · rw [h.2.2.2.1]
    decide
  · have hu := h.2.2.2.2.1
    rwa [he] at hu

end KvckClub
